import Mathlib

/-!
Shallow embedding of `src/index.js` (Buldlrarc/burn-bot).

The program is a single class `BurnBot` orchestrating, once per timer tick:
balance check → buy → settle wait → burn → statistics update.  External
effects (RPC balance queries, the trading HTTP endpoint, transaction
send/confirm, the current time) are modelled by a `World` record of
`Except`-valued oracles: `Except.ok` is the value the external call would
produce, `Except.error` is the exception it would raise.  JavaScript
numbers that carry money/token amounts are modelled as exact rationals `ℚ`
(lamports and raw token amounts are small enough that IEEE-754 rounding
never changes any branch the claims are about).  Control flow, the
try/catch structure and the order of effects follow the source line by
line; traces of `Event`s record which external actions each run performs.
-/

namespace BurnBot

/-- Configuration relevant to cycle logic: `CONFIG.MIN_SOL_BALANCE`
(src/index.js line 12, parsed from the environment with default 0.005). -/
structure Config where
  minSolBalance : ℚ
  deriving Repr, DecidableEq

/-- The `this.stats` record (src/index.js lines 21-27). -/
structure Stats where
  totalBurns : ℕ
  totalTokensBurned : ℚ
  totalSolSpent : ℚ
  startTime : ℤ
  lastBurnTime : Option ℤ
  deriving Repr, DecidableEq

/-- Observable actions of one cycle, in program order. -/
inductive Event where
  | checkedBalance (b : ℚ)
  | abortedLowBalance
  | abortedFeeReserve
  | calledBuy (amount : ℚ)
  | buyFailedAbort
  | calledBurn
  | burnInstr (amount : ℤ)
  | burnFailedCritical
  | statsUpdated
  deriving Repr, DecidableEq

/-- Oracles for the external calls one cycle can make, in source order:
`connection.getBalance` (line 50, lamports), the whole try-block of
`getTokenBalance` (lines 60-66, the parsed `balance.value.amount`),
the buy pipeline of `buyTokens` (fetch + decode + sign + send + confirm,
lines 78-116, yielding a signature), the bare `await setTimeout` at
line 202 (the only await in `executeCycle` not wrapped in the try/catch
of a callee), `getAssociatedTokenAddress` inside `burnTokens` (line 134),
`getLatestBlockhash` (line 150), the burn send+confirm (lines 155-160),
and `new Date()` for the stats timestamp (line 216). -/
structure World where
  balanceLamports : Except String ℤ
  tokenQuery : Except String ℚ
  buyOutcome : Except String String
  settleWait : Except String Unit
  ataOk : Except String Unit
  blockhash : Except String String
  burnSendConfirm : Except String String
  now : ℤ

/-- `getBalance` (src/index.js lines 48-56): lamports / 1e9, and `0` when
the query throws (the catch at lines 52-55). -/
def getBalance (w : World) : ℚ :=
  match w.balanceLamports with
  | Except.ok n => (n : ℚ) / 1000000000
  | Except.error _ => 0

/-- `getTokenBalance` (src/index.js lines 58-71): the parsed raw amount,
and `0` when the try-block throws (non-existent token account,
lines 67-70). -/
def getTokenBalance (w : World) : ℚ :=
  match w.tokenQuery with
  | Except.ok a => a
  | Except.error _ => 0

/-- Result object of `buyTokens` (src/index.js lines 116, 119). -/
structure BuyResult where
  success : Bool
  signature : Option String
  error : Option String
  deriving Repr, DecidableEq

/-- `buyTokens` (src/index.js lines 73-121): the whole pipeline sits in one
try/catch, so it returns `success: true` with a signature, or
`success: false` with the error message — it never throws. -/
def buyTokens (w : World) (_solAmount : ℚ) : BuyResult :=
  match w.buyOutcome with
  | Except.ok sig => ⟨true, some sig, none⟩
  | Except.error e => ⟨false, none, some e⟩

/-- Result object of `burnTokens` (src/index.js lines 129, 164, 167).
On success `amount` carries `tokenBalance` as returned at line 164. -/
structure BurnResult where
  success : Bool
  signature : Option String
  amount : Option ℚ
  error : Option String
  deriving Repr, DecidableEq

/-- `burnTokens` (src/index.js lines 123-169).  Reads the token balance;
returns a plain failure when it is zero (lines 127-130).  Otherwise it
derives the token account, builds a burn instruction whose amount is
`BigInt(Math.floor(tokenBalance))` (line 144) — recorded as a
`burnInstr` event — fetches a blockhash, signs, sends and confirms.
Every throw inside is caught at lines 165-168 and becomes a failure
result. -/
def burnTokens (w : World) : BurnResult × List Event :=
  let tokenBalance := getTokenBalance w
  if tokenBalance = 0 then
    (⟨false, none, none, none⟩, [])
  else
    match w.ataOk with
    | Except.error e => (⟨false, none, none, some e⟩, [])
    | Except.ok _ =>
      let instrAmount : ℤ := ⌊tokenBalance⌋
      match w.blockhash with
      | Except.error e => (⟨false, none, none, some e⟩, [Event.burnInstr instrAmount])
      | Except.ok _ =>
        match w.burnSendConfirm with
        | Except.error e => (⟨false, none, none, some e⟩, [Event.burnInstr instrAmount])
        | Except.ok sig =>
          (⟨true, some sig, some tokenBalance, none⟩, [Event.burnInstr instrAmount])

/-- The body of `executeCycle` inside its try (src/index.js lines 172-225).
An `Except.error` is a throw escaping the body into the outer catch; it
carries the events that had already happened.  The only throw point is
the bare settle wait at line 202 — every callee catches its own
errors. -/
def executeCycleBody (cfg : Config) (w : World) (s : Stats) :
    Except (String × List Event) (Stats × List Event) :=
  let solBalance := getBalance w
  let ev0 : List Event := [Event.checkedBalance solBalance]
  if solBalance < cfg.minSolBalance then
    Except.ok (s, ev0 ++ [Event.abortedLowBalance])
  else
    let buyAmount := max (solBalance - 5 / 1000) (1 / 1000)
    if buyAmount ≤ 0 then
      Except.ok (s, ev0 ++ [Event.abortedFeeReserve])
    else
      let buyResult := buyTokens w buyAmount
      let ev1 := ev0 ++ [Event.calledBuy buyAmount]
      if buyResult.success = false then
        Except.ok (s, ev1 ++ [Event.buyFailedAbort])
      else
        match w.settleWait with
        | Except.error e => Except.error (e, ev1)
        | Except.ok _ =>
          let br := burnTokens w
          let ev2 := ev1 ++ [Event.calledBurn] ++ br.2
          if br.1.success = false then
            Except.ok (s, ev2 ++ [Event.burnFailedCritical])
          else
            Except.ok
              (⟨s.totalBurns + 1,
                s.totalTokensBurned + br.1.amount.getD 0,
                s.totalSolSpent + buyAmount,
                s.startTime,
                some w.now⟩,
               ev2 ++ [Event.statsUpdated])

/-- Outcome of one full `executeCycle` call: the statistics afterwards, the
trace, and the error message the outer catch (lines 227-230) absorbed,
if any. -/
structure CycleResult where
  stats : Stats
  events : List Event
  caught : Option String
  deriving Repr, DecidableEq

/-- `executeCycle` (src/index.js lines 171-231): the body wrapped in the
outer try/catch, which logs the error and returns normally, leaving
`this.stats` as it was. -/
def executeCycle (cfg : Config) (w : World) (s : Stats) : CycleResult :=
  match executeCycleBody cfg w s with
  | Except.ok (s2, ev) => ⟨s2, ev, none⟩
  | Except.error (e, ev) => ⟨s, ev, some e⟩

/-- Observable steps of the `BurnBot` constructor and `loadWallet`
(src/index.js lines 17-40). -/
inductive InitEvent where
  | constructConnection
  | decodeSecretKey
  | exitProcess (code : ℕ)
  | constructTokenMint
  | initStats
  deriving Repr, DecidableEq

/-- Oracle for wallet loading: `bs58.decode` + `Keypair.fromSecretKey`
(lines 33-34), yielding the secret-key bytes or throwing. -/
structure InitWorld where
  decodeSecret : Except String (List ℕ)

/-- The `BurnBot` constructor (src/index.js lines 17-28): it first builds
`new Connection(...)` (line 18), then calls `loadWallet()` (line 19)
whose catch calls `process.exit(1)` on a decode failure (line 38) — so
nothing after the exit runs — and on success goes on to build the token
mint key (line 20) and initialise the stats record (lines 21-27). -/
def burnBotInit (w : InitWorld) : List InitEvent :=
  InitEvent.constructConnection ::
    (match w.decodeSecret with
     | Except.ok _ =>
       [InitEvent.decodeSecretKey, InitEvent.constructTokenMint, InitEvent.initStats]
     | Except.error _ =>
       [InitEvent.decodeSecretKey, InitEvent.exitProcess 1])

/-! ## Concrete inputs used to exercise the theorems -/

/-- The default configuration: `MIN_SOL_BALANCE = 0.005`. -/
def cfgDefault : Config := ⟨5 / 1000⟩

/-- A configuration with a low minimum balance, `MIN_SOL_BALANCE = 0.002`. -/
def cfgLow : Config := ⟨1 / 500⟩

/-- A concrete starting statistics record. -/
def s0 : Stats := ⟨2, 50, 3 / 100, 0, some 7⟩

/-- World: balance 0.01 SOL, buy succeeds, token balance 0 so the burn
reports failure. -/
def wBurnZero : World :=
  ⟨Except.ok 10000000, Except.ok 0, Except.ok ("sigBuy"), Except.ok (),
   Except.ok (), Except.ok ("bh"), Except.ok ("sigBurn"), 100⟩

/-- World: balance 0.01 SOL, the buy pipeline fails with an HTTP error. -/
def wBuyFail : World :=
  ⟨Except.ok 10000000, Except.ok 5, Except.error ("HTTP 500"), Except.ok (),
   Except.ok (), Except.ok ("bh"), Except.ok ("sb"), 0⟩

/-- World: balance 0.003 SOL, below the default minimum. -/
def wLowBal : World :=
  ⟨Except.ok 3000000, Except.ok 0, Except.ok ("s"), Except.ok (),
   Except.ok (), Except.ok ("bh"), Except.ok ("sb"), 0⟩

/-- World: balance 0.01 SOL, buy and burn both succeed, token balance 5. -/
def wFull : World :=
  ⟨Except.ok 10000000, Except.ok 5, Except.ok ("sigBuy"), Except.ok (),
   Except.ok (), Except.ok ("bh"), Except.ok ("sigBurn"), 123⟩

/-- World: token balance 7/2, everything else succeeds (exercises the floor
in the burn instruction). -/
def wFrac : World :=
  ⟨Except.ok 0, Except.ok (7 / 2), Except.ok ("s"), Except.ok (),
   Except.ok (), Except.ok ("bh"), Except.ok ("sb"), 0⟩

/-- World: the token-balance query throws (associated token account does not
exist). -/
def wNoAcct : World :=
  ⟨Except.ok 0, Except.error ("no token account"), Except.ok ("s"), Except.ok (),
   Except.ok (), Except.ok ("bh"), Except.ok ("sb"), 0⟩

/-- World: balance 0.004 SOL (above the `cfgLow` minimum but below 0.006). -/
def wSmall : World :=
  ⟨Except.ok 4000000, Except.ok 0, Except.error ("http"), Except.ok (),
   Except.ok (), Except.ok ("bh"), Except.ok ("sb"), 0⟩

/-- Init world whose secret-key decode throws. -/
def wBadKey : InitWorld := ⟨Except.error ("invalid base58")⟩

/-! ## Helper lemmas -/

/-- The buy amount `Math.max(solBalance - 0.005, 0.001)` (line 186) is never
nonpositive, whatever the balance. -/
lemma buyAmount_not_nonpos (b : ℚ) : ¬ max (b - 5 / 1000) (1 / 1000) ≤ 0 := by
  intro h
  have h1 : (1 : ℚ) / 1000 ≤ max (b - 5 / 1000) (1 / 1000) := le_max_right _ _
  linarith

/-- A `burnTokens` run emits either no event or exactly one burn-instruction
event carrying the floor of the queried balance. -/
lemma burnTokens_snd_shape (w : World) :
    (burnTokens w).2 = []
    ∨ (burnTokens w).2 = [Event.burnInstr ⌊getTokenBalance w⌋] := by
  unfold burnTokens
  by_cases h0 : getTokenBalance w = 0
  · rw [if_pos h0]
    exact Or.inl rfl
  · rw [if_neg h0]
    cases hA : w.ataOk with
    | error e => exact Or.inl rfl
    | ok u =>
      cases hB : w.blockhash with
      | error e => exact Or.inr rfl
      | ok bh =>
        cases hC : w.burnSendConfirm with
        | error e => exact Or.inr rfl
        | ok sig => exact Or.inr rfl

/-- When the minimum-balance gate passes, the cycle trace starts with the
balance check and the buy call (at amount `max (b - 0.005) 0.001`), and no
further buy call and no fee-reservation abort appears in the rest. -/
lemma executeCycle_events_shape (cfg : Config) (w : World) (s : Stats)
    (h1 : ¬ getBalance w < cfg.minSolBalance) :
    ∃ tail,
      (executeCycle cfg w s).events
        = Event.checkedBalance (getBalance w)
          :: Event.calledBuy (max (getBalance w - 5 / 1000) (1 / 1000)) :: tail
      ∧ (∀ a, Event.calledBuy a ∉ tail)
      ∧ Event.abortedFeeReserve ∉ tail := by
  have h2 := buyAmount_not_nonpos (getBalance w)
  simp only [executeCycle, executeCycleBody]
  rw [if_neg h1, if_neg h2]
  cases hb : (buyTokens w (max (getBalance w - 5 / 1000) (1 / 1000))).success with
  | false =>
    refine ⟨[Event.buyFailedAbort], ?_, ?_, ?_⟩ <;> simp
  | true =>
    cases hw : w.settleWait with
    | error e =>
      refine ⟨[], ?_, ?_, ?_⟩ <;> simp
    | ok u =>
      rcases burnTokens_snd_shape w with hs | hs
      · cases hb2 : (burnTokens w).1.success with
        | false =>
          refine ⟨[Event.calledBurn, Event.burnFailedCritical], ?_, ?_, ?_⟩ <;>
            simp [hs]
        | true =>
          refine ⟨[Event.calledBurn, Event.statsUpdated], ?_, ?_, ?_⟩ <;>
            simp [hs]
      · cases hb2 : (burnTokens w).1.success with
        | false =>
          refine ⟨[Event.calledBurn, Event.burnInstr ⌊getTokenBalance w⌋,
                   Event.burnFailedCritical], ?_, ?_, ?_⟩ <;> simp [hs]
        | true =>
          refine ⟨[Event.calledBurn, Event.burnInstr ⌊getTokenBalance w⌋,
                   Event.statsUpdated], ?_, ?_, ?_⟩ <;> simp [hs]

/-! ## Claim theorems -/

/-- C1: when the minimum-balance gate passes, the buy succeeds, the settle
wait completes and the subsequent burn reports failure, `executeCycle`
leaves the statistics record (all fields, in particular totalBurns,
totalTokensBurned, totalSolSpent and lastBurnTime) unchanged: statistics
increment only on full-cycle success. -/
theorem executeCycle_burnFail_stats_unchanged (cfg : Config) (w : World) (s : Stats)
    (hmin : cfg.minSolBalance ≤ getBalance w)
    (hbuy : (buyTokens w (max (getBalance w - 5 / 1000) (1 / 1000))).success = true)
    (hwait : w.settleWait = Except.ok ())
    (hburn : (burnTokens w).1.success = false) :
    (executeCycle cfg w s).stats = s := by
  have h1 : ¬ getBalance w < cfg.minSolBalance := not_lt.mpr hmin
  have h2 := buyAmount_not_nonpos (getBalance w)
  simp only [executeCycle, executeCycleBody]
  rw [if_neg h1, if_neg h2]
  rw [if_neg (show ¬ ((buyTokens w (max (getBalance w - 5 / 1000) (1 / 1000))).success
    = false) from by rw [hbuy]; decide)]
  cases hw2 : w.settleWait with
  | error e => simp [hwait] at hw2
  | ok u => simp [hburn]

/-- C1 witness: with balance 0.01, a successful buy and a zero token balance
(burn fails), the concrete statistics record `s0` is unchanged. -/
theorem executeCycle_burnFail_stats_unchanged_witness :
    (executeCycle cfgDefault wBurnZero s0).stats = s0 :=
  executeCycle_burnFail_stats_unchanged cfgDefault wBurnZero s0
    (by norm_num [cfgDefault, getBalance, wBurnZero])
    (by simp [buyTokens, wBurnZero])
    rfl
    (by simp [burnTokens, getTokenBalance, wBurnZero])

/-- C2: whenever the buy pipeline fails (so `buyTokens` returns a failure
result), the cycle never reaches the burn stage — no `calledBurn` event —
and the statistics record is unchanged. -/
theorem executeCycle_buyFail_skips_burn (cfg : Config) (w : World) (s : Stats)
    (e : String) (h : w.buyOutcome = Except.error e) :
    Event.calledBurn ∉ (executeCycle cfg w s).events
    ∧ (executeCycle cfg w s).stats = s := by
  simp only [executeCycle, executeCycleBody, buyTokens, h]
  split_ifs <;> simp

/-- C2 witness: with a failing buy (HTTP 500), the burn is not invoked and
`s0` is unchanged. -/
theorem executeCycle_buyFail_skips_burn_witness :
    Event.calledBurn ∉ (executeCycle cfgDefault wBuyFail s0).events
    ∧ (executeCycle cfgDefault wBuyFail s0).stats = s0 :=
  executeCycle_buyFail_skips_burn cfgDefault wBuyFail s0 ("HTTP 500") rfl

/-- C3: when the native balance is below the configured minimum, the cycle
aborts right after the balance check: the trace is exactly the balance check
followed by the low-balance abort, the statistics are unchanged, and in
particular no buy call is made. -/
theorem executeCycle_lowBalance_aborts (cfg : Config) (w : World) (s : Stats)
    (h : getBalance w < cfg.minSolBalance) :
    (executeCycle cfg w s).events
      = [Event.checkedBalance (getBalance w), Event.abortedLowBalance]
    ∧ (executeCycle cfg w s).stats = s
    ∧ ∀ a, Event.calledBuy a ∉ (executeCycle cfg w s).events := by
  simp [executeCycle, executeCycleBody, h]

/-- C3 witness: with balance 0.003 and `MIN_SOL_BALANCE = 0.005` the cycle
aborts without any buy call. -/
theorem executeCycle_lowBalance_aborts_witness :
    (executeCycle cfgDefault wLowBal s0).events
      = [Event.checkedBalance (3 / 1000), Event.abortedLowBalance]
    ∧ (executeCycle cfgDefault wLowBal s0).stats = s0 := by
  have h := executeCycle_lowBalance_aborts cfgDefault wLowBal s0
    (by norm_num [cfgDefault, getBalance, wLowBal])
  have hb : getBalance wLowBal = 3 / 1000 := by norm_num [getBalance, wLowBal]
  exact ⟨by rw [h.1, hb], h.2.1⟩

/-- C4: on a fully successful cycle (buy succeeded, burn succeeded reporting
amount `a`), `executeCycle` updates all four statistics fields together:
totalBurns + 1, totalTokensBurned + a, totalSolSpent + the spend amount
`max (balance - 0.005) 0.001`, and lastBurnTime set to the current time
(startTime untouched). -/
theorem executeCycle_fullSuccess_updates_stats (cfg : Config) (w : World) (s : Stats)
    (a : ℚ)
    (hmin : cfg.minSolBalance ≤ getBalance w)
    (hbuy : (buyTokens w (max (getBalance w - 5 / 1000) (1 / 1000))).success = true)
    (hwait : w.settleWait = Except.ok ())
    (hburn : (burnTokens w).1.success = true)
    (ha : (burnTokens w).1.amount = some a) :
    (executeCycle cfg w s).stats
      = ⟨s.totalBurns + 1, s.totalTokensBurned + a,
         s.totalSolSpent + max (getBalance w - 5 / 1000) (1 / 1000),
         s.startTime, some w.now⟩ := by
  have h1 : ¬ getBalance w < cfg.minSolBalance := not_lt.mpr hmin
  have h2 := buyAmount_not_nonpos (getBalance w)
  simp only [executeCycle, executeCycleBody]
  rw [if_neg h1, if_neg h2]
  rw [if_neg (show ¬ ((buyTokens w (max (getBalance w - 5 / 1000) (1 / 1000))).success
    = false) from by rw [hbuy]; decide)]
  cases hw2 : w.settleWait with
  | error e => simp [hwait] at hw2
  | ok u => simp [hburn, ha]

/-- C4 witness: balance 0.01, token balance 5, everything succeeds: starting
from `s0 = ⟨2, 50, 3/100, 0, some 7⟩` the statistics become
`⟨3, 55, 7/200, 0, some 123⟩`. -/
theorem executeCycle_fullSuccess_updates_stats_witness :
    (executeCycle cfgDefault wFull s0).stats = ⟨3, 55, 7 / 200, 0, some 123⟩ := by
  have hb : getBalance wFull = 1 / 100 := by norm_num [getBalance, wFull]
  have hmax : max (getBalance wFull - 5 / 1000) (1 / 1000) = 5 / 1000 := by
    rw [hb, max_eq_left (by norm_num)]
    norm_num
  have h := executeCycle_fullSuccess_updates_stats cfgDefault wFull s0 5
    (by norm_num [cfgDefault, getBalance, wFull])
    (by simp [buyTokens, wFull])
    rfl
    (by norm_num [burnTokens, getTokenBalance, wFull])
    (by norm_num [burnTokens, getTokenBalance, wFull])
  rw [h, hmax]
  norm_num [s0, wFull]

/-- C5: whenever the native balance is at or above the configured minimum,
the cycle invokes the buy with amount exactly `max (balance - 0.005) 0.001`,
and no buy call with any other amount occurs. -/
theorem executeCycle_buyAmount_spec (cfg : Config) (w : World) (s : Stats)
    (hmin : cfg.minSolBalance ≤ getBalance w) :
    Event.calledBuy (max (getBalance w - 5 / 1000) (1 / 1000))
      ∈ (executeCycle cfg w s).events
    ∧ ∀ a, Event.calledBuy a ∈ (executeCycle cfg w s).events
        → a = max (getBalance w - 5 / 1000) (1 / 1000) := by
  obtain ⟨tail, he, hno, -⟩ := executeCycle_events_shape cfg w s (not_lt.mpr hmin)
  rw [he]
  constructor
  · exact List.mem_cons_of_mem _ (List.mem_cons_self _ _)
  · intro a ha
    cases ha with
    | tail _ ha2 =>
      cases ha2 with
      | head => rfl
      | tail _ ha3 => exact absurd ha3 (hno a)

/-- C5 witness: with balance 0.01 and the default minimum 0.005 the buy is
invoked with amount 0.005. -/
theorem executeCycle_buyAmount_spec_witness :
    Event.calledBuy (5 / 1000) ∈ (executeCycle cfgDefault wFull s0).events := by
  have hb : getBalance wFull = 1 / 100 := by norm_num [getBalance, wFull]
  have hm : max (getBalance wFull - 5 / 1000) (1 / 1000) = 5 / 1000 := by
    rw [hb, max_eq_left (by norm_num)]
    norm_num
  have h := (executeCycle_buyAmount_spec cfgDefault wFull s0
    (by norm_num [cfgDefault, getBalance, wFull])).1
  rwa [hm] at h

/-- C6: for every nonzero queried token balance (with the token-account
derivation succeeding), the burn instruction built by `burnTokens` carries
exactly the integer floor of that balance, and that amount never exceeds the
queried balance — any fractional remainder is not burned. -/
theorem burnTokens_floor_amount (w : World)
    (h0 : getTokenBalance w ≠ 0) (hata : w.ataOk = Except.ok ()) :
    (burnTokens w).2 = [Event.burnInstr ⌊getTokenBalance w⌋]
    ∧ ((⌊getTokenBalance w⌋ : ℤ) : ℚ) ≤ getTokenBalance w := by
  constructor
  · unfold burnTokens
    rw [if_neg h0, hata]
    cases hB : w.blockhash with
    | error e => simp
    | ok bh =>
      cases hC : w.burnSendConfirm with
      | error e => simp
      | ok sig => simp
  · exact Int.floor_le _

/-- C6 witness: with queried balance 7/2 the burn instruction carries 3, and
3 does not exceed 7/2. -/
theorem burnTokens_floor_amount_witness :
    (burnTokens wFrac).2 = [Event.burnInstr 3]
    ∧ ((3 : ℤ) : ℚ) ≤ getTokenBalance wFrac := by
  have htb : getTokenBalance wFrac = 7 / 2 := by norm_num [getTokenBalance, wFrac]
  have hfl : ⌊getTokenBalance wFrac⌋ = 3 := by
    rw [htb, Int.floor_eq_iff]
    constructor <;> norm_num
  have h := burnTokens_floor_amount wFrac (by rw [htb]; norm_num) rfl
  rw [hfl] at h
  exact h

/-- C7: when the token-balance query throws (non-existent associated token
account), `getTokenBalance` returns 0 instead of propagating the error; and
whenever the queried balance is 0, `burnTokens` returns a normal failure
result immediately, constructing no burn instruction and sending nothing
(its trace is empty). -/
theorem tokenBalance_zero_burn_noop (w : World) :
    (∀ e, w.tokenQuery = Except.error e → getTokenBalance w = 0)
    ∧ (getTokenBalance w = 0 →
        (burnTokens w).1.success = false ∧ (burnTokens w).2 = []) := by
  constructor
  · intro e he
    simp [getTokenBalance, he]
  · intro h0
    unfold burnTokens
    rw [if_pos h0]
    exact ⟨rfl, rfl⟩

/-- C7 witness: with a throwing token-account query, the balance reads 0 and
the burn fails without any instruction. -/
theorem tokenBalance_zero_burn_noop_witness :
    getTokenBalance wNoAcct = 0
    ∧ (burnTokens wNoAcct).1.success = false
    ∧ (burnTokens wNoAcct).2 = [] := by
  have h := tokenBalance_zero_burn_noop wNoAcct
  have h0 := h.1 ("no token account") rfl
  exact ⟨h0, (h.2 h0).1, (h.2 h0).2⟩

/-- C8 counterexample: with a failing secret-key decode, the constructor
trace is connection construction, then the decode attempt, then exit 1 — so
it is false that the process exits with status 1 before any network client
is constructed: the chain connection is constructed first (src/index.js
line 18 runs before `loadWallet()` at line 19). -/
theorem init_exit_after_connection_cex :
    burnBotInit wBadKey
      = [InitEvent.constructConnection, InitEvent.decodeSecretKey,
         InitEvent.exitProcess 1]
    ∧ ¬ (InitEvent.exitProcess 1 ∈ burnBotInit wBadKey
          ∧ InitEvent.constructConnection ∉ burnBotInit wBadKey) := by
  constructor
  · rfl
  · intro h
    exact h.2 (by rw [(by rfl : burnBotInit wBadKey
      = [InitEvent.constructConnection, InitEvent.decodeSecretKey,
         InitEvent.exitProcess 1])]; exact List.mem_cons_self _ _)

/-- C8 (amended): if decoding the configured secret key throws during wallet
loading, the process terminates with exit status 1 — after the chain
connection client has been constructed (the constructor builds it first),
but before the token mint key is constructed and before the statistics
record is initialised. -/
theorem burnBotInit_decodeFail_trace (w : InitWorld) (e : String)
    (h : w.decodeSecret = Except.error e) :
    burnBotInit w
      = [InitEvent.constructConnection, InitEvent.decodeSecretKey,
         InitEvent.exitProcess 1] := by
  simp [burnBotInit, h]

/-- C8 (amended) witness: concrete failing decode. -/
theorem burnBotInit_decodeFail_trace_witness :
    burnBotInit wBadKey
      = [InitEvent.constructConnection, InitEvent.decodeSecretKey,
         InitEvent.exitProcess 1] :=
  burnBotInit_decodeFail_trace wBadKey ("invalid base58") rfl

/-- C9: no exception escapes `executeCycle`: the call always returns a
result; either nothing was thrown (`caught = none`), or the throw came from
the one uncaught await (the settle wait), in which case the outer catch
records its message and the statistics are left unchanged — a failing cycle
never kills the timer loop. -/
theorem executeCycle_catches_all (cfg : Config) (w : World) (s : Stats) :
    (executeCycle cfg w s).caught = none
    ∨ ∃ e, w.settleWait = Except.error e
        ∧ (executeCycle cfg w s).caught = some e
        ∧ (executeCycle cfg w s).stats = s := by
  by_cases h1 : getBalance w < cfg.minSolBalance
  · left
    simp [executeCycle, executeCycleBody, h1]
  · have h2 := buyAmount_not_nonpos (getBalance w)
    simp only [executeCycle, executeCycleBody]
    rw [if_neg h1, if_neg h2]
    cases hb : (buyTokens w (max (getBalance w - 5 / 1000) (1 / 1000))).success with
    | false => left; simp
    | true =>
      cases hw : w.settleWait with
      | error e =>
        right
        exact ⟨e, rfl, by simp, by simp⟩
      | ok u =>
        cases hb2 : (burnTokens w).1.success with
        | false => left; simp
        | true => left; simp

/-- C10: the `buyAmount <= 0` abort branch of `executeCycle` (line 188) is
unreachable — the fee-reservation abort never appears in any trace; once the
minimum-threshold check passes the buy is always invoked, with amount
`max (balance - 0.005) 0.001`; and for balances below 0.006 that amount is
the floor 0.001, which strictly exceeds `balance - 0.005`. -/
theorem feeReserve_branch_unreachable (cfg : Config) (w : World) (s : Stats) :
    Event.abortedFeeReserve ∉ (executeCycle cfg w s).events
    ∧ (cfg.minSolBalance ≤ getBalance w →
        Event.calledBuy (max (getBalance w - 5 / 1000) (1 / 1000))
          ∈ (executeCycle cfg w s).events)
    ∧ (getBalance w < 6 / 1000 →
        max (getBalance w - 5 / 1000) (1 / 1000) = 1 / 1000
        ∧ getBalance w - 5 / 1000 < 1 / 1000) := by
  refine ⟨?_, ?_, ?_⟩
  · by_cases h1 : getBalance w < cfg.minSolBalance
    · simp [executeCycle, executeCycleBody, h1]
    · obtain ⟨tail, he, -, hfee⟩ := executeCycle_events_shape cfg w s h1
      rw [he]
      simp [hfee]
  · intro hmin
    obtain ⟨tail, he, -, -⟩ := executeCycle_events_shape cfg w s (not_lt.mpr hmin)
    rw [he]
    exact List.mem_cons_of_mem _ (List.mem_cons_self _ _)
  · intro hb
    have hle : getBalance w - 5 / 1000 < 1 / 1000 := by linarith
    exact ⟨max_eq_right (le_of_lt hle), hle⟩

/-- C10 witness: with minimum 0.002 and balance 0.004 (below 0.006), no
fee-reservation abort occurs, the buy is invoked with the floor amount
0.001, and 0.001 is the computed maximum. -/
theorem feeReserve_branch_unreachable_witness :
    Event.abortedFeeReserve ∉ (executeCycle cfgLow wSmall s0).events
    ∧ Event.calledBuy (1 / 1000) ∈ (executeCycle cfgLow wSmall s0).events
    ∧ max (getBalance wSmall - 5 / 1000) (1 / 1000) = 1 / 1000 := by
  have h := feeReserve_branch_unreachable cfgLow wSmall s0
  have hsix : getBalance wSmall < 6 / 1000 := by norm_num [getBalance, wSmall]
  have hmax := (h.2.2 hsix).1
  refine ⟨h.1, ?_, hmax⟩
  have hbuy := h.2.1 (by norm_num [cfgLow, getBalance, wSmall])
  rwa [hmax] at hbuy

end BurnBot
